import Mathlib

/-!
Verification of the football-analysis repository against its specification.

The frontend TypeScript sources (`src/frontend/src/lib/api.ts`,
`src/frontend/src/lib/types.ts`, `src/frontend/src/App.tsx`, the
`VideoUploader`, `VideoTimestampOverlay` and `SummaryPanel` components) are
embedded shallowly below: JavaScript numbers are modelled as rationals,
fallible code as `Except`/`Option`, and the DOM/network boundary is made
explicit (a function returning `Except.error` models a `throw` that happens
before any `fetch` is issued, and the post-`fetch` handling is a pure
function of a modelled HTTP response).

The Python backend (frame sampler, normalizer, orchestrator) is not part of
the source tree given here; the definitions for it are modelled from the
specification text and are marked `Modelled from the spec:` in their doc
comments.
-/

/-! ### JavaScript arithmetic helpers -/

/-- JavaScript truncation toward zero, as applied to a rational. -/
def jsTrunc (q : ℚ) : ℤ :=
  if q < 0 then ⌈q⌉ else ⌊q⌋

/-- The JavaScript `%` operator on numbers (truncated remainder). -/
def jsMod (a b : ℚ) : ℚ :=
  a - b * (jsTrunc (a / b) : ℚ)

/-- JavaScript `Math.round`: round half toward positive infinity. -/
def jsRound (q : ℚ) : ℤ :=
  ⌊q + 1 / 2⌋

/-! ### JavaScript number-to-string rendering (base 10) -/

/-- Digit characters of `n`, most significant first; structural recursion on
a fuel argument so that the kernel can evaluate it.  Empty for `n = 0`. -/
def natDigitChars : ℕ → ℕ → List Char
  | 0, _ => []
  | fuel + 1, n =>
    if n = 0 then [] else natDigitChars fuel (n / 10) ++ [Nat.digitChar (n % 10)]

/-- Decimal rendering of a natural number, as JavaScript renders an integral
number value. -/
def natToString (n : ℕ) : String :=
  if n = 0 then "0" else String.mk (natDigitChars (n + 1) n)

/-- Decimal rendering of an integer. -/
def intToString (i : ℤ) : String :=
  if i < 0 then "-" ++ natToString i.natAbs else natToString i.toNat

/-- JavaScript `String.prototype.padStart`. -/
def padStart (s : String) (n : ℕ) (c : Char) : String :=
  String.mk (List.replicate (n - s.length) c) ++ s

/-! ### Frontend data model (`src/frontend/src/lib/types.ts`) -/

/-- `FrameAnalysis` from `types.ts`: the canonical per-frame record as the
frontend receives it. -/
structure FrameAnalysis where
  timestamp : ℚ
  event : String
  ball_position : String
  players_detected : ℤ
  team_a_shape : String
  team_b_shape : String
  tactical_notes : String
deriving DecidableEq, Repr

/-- `AnalysisResponse` from `types.ts`: the value delivered at the result
boundary, exactly as declared. -/
structure AnalysisResponse where
  frames : List FrameAnalysis
  total_frames : ℤ
  status : String
deriving DecidableEq, Repr

/-- The field names declared by the `AnalysisResponse` interface in
`types.ts`, in declaration order.  There is no further field. -/
def analysisResponseKeys : List String :=
  ["frames", "total_frames", "status"]

/-! ### Upload boundary (`src/frontend/src/lib/api.ts`) -/

/-- A browser `File` value as the upload code observes it: `isFile` models
the `file && file instanceof File` test, `fileType` the MIME `type`,
`size` the byte size. -/
structure FileModel where
  name : String
  fileType : String
  size : ℕ
  isFile : Bool
deriving DecidableEq, Repr

/-- The analysis configuration from `api.ts`. -/
structure AnalysisConfig where
  frame_interval : ℚ
  max_duration : ℚ
deriving DecidableEq, Repr

/-- A value appended to a `FormData`. -/
inductive FormValue where
  | fileVal (f : FileModel)
  | strVal (s : String)
  | numVal (q : ℚ)
deriving DecidableEq, Repr

/-- One `FormData` entry. -/
abbrev FormEntry := String × FormValue

/-- The validation and form-building phase of `uploadVideos` in `api.ts`,
everything that runs before `fetch` is called.  `Except.error m` models a
`throw new Error(m)` raised before any network request; `Except.ok entries`
means validation passed and the request proceeds with exactly these form
entries. -/
def uploadVideosValidate (files : List FileModel) (config : AnalysisConfig) :
    Except String (List FormEntry) :=
  if files.length = 0 then
    .error "No files provided"
  else if 6 < files.length then
    .error "Maximum 6 videos allowed"
  else if config.frame_interval ≤ 0 then
    .error "Frame interval must be greater than 0"
  else if config.max_duration ≤ 0 then
    .error "Max duration must be greater than 0"
  else if files.all (fun f => f.isFile) then
    .ok ((files.map (fun f => (("videos" : String), FormValue.fileVal f))) ++
      [(("frame_interval" : String), FormValue.numVal config.frame_interval),
       (("max_duration" : String), FormValue.numVal config.max_duration)])
  else
    .error "Invalid file provided"

/-- The validation and form-building phase of `addTimestampOverlay` in
`api.ts`, everything before its `fetch`.  `maxDuration = none` models both
`undefined` and `null` (the code treats them alike). -/
def addTimestampOverlayValidate (files : List FileModel) (maxDuration : Option ℚ) :
    Except String (List FormEntry) :=
  if files.length = 0 then
    .error "No files provided"
  else if 6 < files.length then
    .error "Maximum 6 videos allowed"
  else
    match maxDuration with
    | some md =>
      if md ≤ 0 then
        .error "Max duration must be greater than 0"
      else if 60 < md then
        .error "Max duration cannot exceed 60 seconds"
      else if files.all (fun f => f.isFile) then
        .ok ((files.map (fun f => (("videos" : String), FormValue.fileVal f))) ++
          [(("max_duration" : String), FormValue.numVal md)])
      else
        .error "Invalid file provided"
    | none =>
      if files.all (fun f => f.isFile) then
        .ok (files.map (fun f => (("videos" : String), FormValue.fileVal f)))
      else
        .error "Invalid file provided"

/-! ### Parsed JSON values and the post-`fetch` handling in `uploadVideos` -/

/-- A parsed JSON value, as `await response.json()` can produce. -/
inductive JVal where
  | jnull
  | jbool (b : Bool)
  | jnum (q : ℚ)
  | jstr (s : String)
  | jarr (elems : List JVal)
  | jobj (fields : List (String × JVal))

/-- JavaScript falsiness of a parsed JSON value (`!result`). -/
def JVal.falsy : JVal → Bool
  | .jnull => true
  | .jbool b => !b
  | .jnum q => q = 0
  | .jstr s => s = ""
  | .jarr _ => false
  | .jobj _ => false

/-- Property access `v.k` on a parsed JSON value: `none` models
`undefined`. -/
def JVal.getField (v : JVal) (k : String) : Option JVal :=
  match v with
  | .jobj fields => fields.lookup k
  | _ => none

/-- `Array.isArray` applied to a possibly-`undefined` value. -/
def isArrayOpt : Option JVal → Bool
  | some (.jarr _) => true
  | _ => false

/-- Display form of a JSON value used as an `Error` message (string values
pass through unchanged; the exact JavaScript rendering of non-string
payloads is abstracted, which no verified property depends on). -/
def JVal.display : JVal → String
  | .jnull => "null"
  | .jbool b => cond b "true" "false"
  | .jnum q => toString q
  | .jstr s => s
  | .jarr _ => "array"
  | .jobj _ => "object"

/-- An HTTP response as the code observes it after `fetch` resolves:
`ok`/`status`/`statusText` from the `Response`, and `body` is the result of
`await response.json()` (`none` when JSON parsing throws). -/
structure FetchResponse where
  ok : Bool
  status : ℕ
  statusText : String
  body : Option JVal

/-- The error-message selection of `uploadVideos` for a non-ok response:
`errorData.detail || errorData.message || 'Failed to upload videos'` when
the body parses, else `response.statusText || 'Server error (N)'`. -/
def uploadErrorMessage (r : FetchResponse) : String :=
  match r.body with
  | some b =>
    match b.getField "detail" with
    | some d => if d.falsy then
        (match b.getField "message" with
         | some m => if m.falsy then "Failed to upload videos" else m.display
         | none => "Failed to upload videos")
      else d.display
    | none =>
      match b.getField "message" with
      | some m => if m.falsy then "Failed to upload videos" else m.display
      | none => "Failed to upload videos"
  | none =>
    if r.statusText = "" then "Server error (" ++ natToString r.status ++ ")"
    else r.statusText

/-- The post-`fetch` half of `uploadVideos` in `api.ts` (lines 46-93):
status-specific throwing for non-ok responses and structural validation of
the ok body.  `Except.ok` is the function returning normally with the parsed
body. -/
def uploadVideosHandleResponse (r : FetchResponse) : Except String JVal :=
  if !r.ok then
    let em := uploadErrorMessage r
    if r.status = 400 then
      .error (if em = "" then
        "Invalid request. Please check your video files and settings." else em)
    else if r.status = 413 then
      .error "File too large. Maximum file size is 100MB."
    else if r.status = 500 then
      .error "Server error. Please try again later."
    else if 500 ≤ r.status then
      .error ("Server error (" ++ natToString r.status ++ "). Please try again later.")
    else
      .error em
  else
    match r.body with
    | none => .error "Failed to parse response JSON"
    | some b =>
      if b.falsy then .error "Invalid response from server"
      else if isArrayOpt (b.getField "frames") then .ok b
      else .error "Invalid response format: frames must be an array"

/-! ### `App.tsx`: the banner shown for a partial analysis -/

/-- The fixed explanation text hard-coded in `App.tsx` for partial results. -/
def partialQuotaText : String :=
  "API quota exhausted. Some frames were analyzed successfully, but others could not be processed due to daily quota limits (20 requests/day for free tier). Please upgrade your plan or try again tomorrow."

/-- The partial-results banner of `App.tsx` (lines 156-178): rendered with
the fixed quota text exactly when the stored analysis status is the string
`"partial"`, independently of anything else in the response. -/
def partialBanner (analysisStatus : String) : Option String :=
  if analysisStatus = "partial" then some partialQuotaText else none

/-- The banner the app shows after delivering a response `r` through
`handleAnalysisComplete` (which stores `r.status` unchanged). -/
def bannerFor (r : AnalysisResponse) : Option String :=
  partialBanner r.status

/-! ### `VideoUploader` component: file selection and pre-validation -/

/-- Outcome of the count guard at the top of `handleFileSelect`
(`src/unnamed/part_002`, lines 151-162). -/
inductive SelectOutcome where
  | noop
  | rejected (msg : String)
  | proceed
deriving DecidableEq, Repr

/-- The guard phase of `handleFileSelect`: an empty selection returns
silently; a selection that would bring the video count above 6 sets the
error `"Maximum 6 videos allowed"` and returns before any file is added;
otherwise per-file validation proceeds. -/
def handleFileSelectGuard (videosLen fileCount : ℕ) : SelectOutcome :=
  if fileCount = 0 then .noop
  else if 6 < videosLen + fileCount then .rejected "Maximum 6 videos allowed"
  else .proceed

/-- Why `validateVideo` rejects a file before looking at its metadata. -/
inductive VideoRejection where
  | invalidFile
  | notVideo
  | tooLarge
  | emptyFile
deriving DecidableEq, Repr

/-- The synchronous prefix of `validateVideo` in
`src/frontend/src/components/VideoUploader.tsx` (lines 30-51): the checks
performed before the browser is asked for metadata.  `none` means the file
passed all size/type pre-validation. -/
def validateVideoSync (f : FileModel) : Option VideoRejection :=
  if !f.isFile then some .invalidFile
  else if !(f.fileType.startsWith "video/") then some .notVideo
  else if 100 * 1024 * 1024 < f.size then some .tooLarge
  else if f.size = 0 then some .emptyFile
  else none

/-! ### `SummaryPanel` (`src/unnamed/part_003`): the computed summary -/

/-- Whether a frame counts as an event in `SummaryPanel`
(`frame.event && frame.event !== 'none' && frame.event !== 'unknown'`). -/
def isCountedEvent (f : FrameAnalysis) : Bool :=
  f.event ≠ "" && f.event ≠ "none" && f.event ≠ "unknown"

/-- Whether a frame counts toward ball visibility in `SummaryPanel`
(`frame.ball_position && frame.ball_position !== 'Not visible'`). -/
def isBallVisible (f : FrameAnalysis) : Bool :=
  f.ball_position ≠ "" && f.ball_position ≠ "Not visible"

/-- The numeric part of the summary `SummaryPanel` memoizes.
`avgPlayersDetected` and `ballVisibilityRate` are stored after the
`Math.round` post-processing of the component; `Math.round` always yields an
integral value, which the `ℤ` codomain of `ballVisibilityRate` records. -/
structure Summary where
  totalEvents : ℕ
  avgPlayersDetected : ℚ
  ballVisibilityRate : ℤ
deriving DecidableEq, Repr

/-- The summary computation in `SummaryPanel` (lines 11-62), restricted to
the fields the verified properties mention.  Divisions by `frames.length`
are guarded by `frames.length > 0 ? … : 0` exactly as in the source. -/
def computeSummary (frames : List FrameAnalysis) : Summary :=
  let totalPlayers : ℤ := (frames.map (fun f => f.players_detected)).sum
  let ballVisibleCount : ℕ := (frames.filter (fun f => isBallVisible f)).length
  let avgPlayersDetected : ℚ :=
    if 0 < frames.length then totalPlayers / (frames.length : ℚ) else 0
  let ballVisibilityRate : ℚ :=
    if 0 < frames.length then (ballVisibleCount : ℚ) / (frames.length : ℚ) else 0
  { totalEvents := (frames.filter (fun f => isCountedEvent f)).length
    avgPlayersDetected := (jsRound (avgPlayersDetected * 10) : ℚ) / 10
    ballVisibilityRate := jsRound (ballVisibilityRate * 100) }

/-! ### `VideoTimestampOverlay` (`src/unnamed/part_001`): `formatDuration` -/

/-- `formatDuration` (lines 271-281): renders a duration in seconds.  Note
that the hours field and the two-digit padding of the minutes field appear
only in the `hours > 0` branch. -/
def formatDuration (seconds : ℚ) : String :=
  let hours : ℤ := ⌊seconds / 3600⌋
  let minutes : ℤ := ⌊jsMod seconds 3600 / 60⌋
  let secs : ℤ := ⌊jsMod seconds 60⌋
  let ms : ℤ := ⌊jsMod seconds 1 * 1000⌋
  if 0 < hours then
    intToString hours ++ ":" ++ padStart (intToString minutes) 2 '0' ++ ":" ++
      padStart (intToString secs) 2 '0' ++ "." ++ padStart (intToString ms) 3 '0'
  else
    intToString minutes ++ ":" ++ padStart (intToString secs) 2 '0' ++ "." ++
      padStart (intToString ms) 3 '0'

/-- The form the claim ascribes to every formatted timestamp: an hours
field, a two-digit minutes field, a two-digit seconds field and a
three-digit milliseconds field, i.e. `H:MM:SS.mmm`.  Stated from the
specification's words, to be compared with `formatDuration`. -/
def specHoursMinSecMs (out : String) : Prop :=
  ∃ h m sec ms : String,
    out = h ++ ":" ++ m ++ ":" ++ sec ++ "." ++ ms ∧
    h ≠ "" ∧ m.length = 2 ∧ sec.length = 2 ∧ ms.length = 3

/-- The form `formatDuration` actually produces for durations under one
hour: a non-empty unpadded minutes field, a two-digit seconds field and a
three-digit milliseconds field, with no hours field. -/
def specMinSecMs (out : String) : Prop :=
  ∃ m sec ms : String,
    out = m ++ ":" ++ sec ++ "." ++ ms ∧
    m ≠ "" ∧ (m.data.count ':') = 0 ∧ sec.length = 2 ∧ ms.length = 3

/-! ### Spec-modelled backend core

The Python backend (`video_processor.py`, `gemini_analyzer.py`,
`models.py`, `main.py`) is not part of the provided source tree; the
definitions in this namespace are modelled from the specification text
(sections 3, 4.1, 4.4, 4.5, 7). -/

namespace Core

/-- Modelled from the spec: `RawModelOutput`, the untyped JSON from one AI
call (spec section 3).  Each field may be missing; `players_detected` is
`none` also when the raw value is non-numeric. -/
structure RawModelOutput where
  timestamp : Option ℚ
  team : Option String
  event : Option String
  ball_position : Option String
  players_detected : Option ℤ
  team_a_shape : Option String
  team_b_shape : Option String
  tactical_notes : Option String
deriving DecidableEq, Repr

/-- Modelled from the spec: the backend's canonical validated per-frame
record `FrameAnalysis` (spec section 3), including the team-identity field
whose value is constrained to `{A, B, unknown}`. -/
structure FrameAnalysis where
  timestamp : ℚ
  team : String
  event : String
  ball_position : String
  players_detected : ℤ
  team_a_shape : String
  team_b_shape : String
  tactical_notes : String
deriving DecidableEq, Repr

/-- Modelled from the spec: the synonym set mapped to team `"A"`
(spec section 4.4: free text like "Team A", "TEAM 1", "1", "home";
case-insensitive, synonym/number tolerant). -/
def teamASynonyms : List String :=
  ["a", "team a", "team1", "team 1", "teama", "1", "home"]

/-- Modelled from the spec: the symmetric synonym set mapped to `"B"`. -/
def teamBSynonyms : List String :=
  ["b", "team b", "team2", "team 2", "teamb", "2", "away"]

/-- ASCII lowercasing of one character, for case-insensitive matching. -/
def charLowerAscii (c : Char) : Char :=
  if 'A' ≤ c ∧ c ≤ 'Z' then Char.ofNat (c.toNat + 32) else c

/-- ASCII lowercasing of a string. -/
def lowerAscii (s : String) : String :=
  String.mk (s.data.map charLowerAscii)

/-- Modelled from the spec: team-identity normalization (spec section 4.4):
recognized synonyms map case-insensitively to `"A"` or `"B"`, everything
else (including a missing field) to `"unknown"`. -/
def normalizeTeam (raw : Option String) : String :=
  match raw with
  | none => "unknown"
  | some t =>
    let l := lowerAscii t
    if teamASynonyms.contains l then "A"
    else if teamBSynonyms.contains l then "B"
    else "unknown"

/-- Modelled from the spec: `players_detected` coerced to a non-negative
integer; negative or non-numeric raw values become 0 (spec section 4.4). -/
def normalizePlayers (raw : Option ℤ) : ℤ :=
  match raw with
  | none => 0
  | some n => if n < 0 then 0 else n

/-- Modelled from the spec: a string field defaulted to a fixed sentinel
when absent or empty (spec section 4.4). -/
def normalizeStr (default : String) (raw : Option String) : String :=
  match raw with
  | none => default
  | some s => if s = "" then default else s

/-- Modelled from the spec: `normalize(RawModelOutput) -> FrameAnalysis`,
the total field-by-field repair of one raw AI response (spec section 4.4);
`event` defaults to `"none"`, `ball_position` to `"unknown"`, the two shape
fields to `"Unknown"`, `tactical_notes` to `"none"`, a missing timestamp to
0. -/
def normalize (raw : RawModelOutput) : FrameAnalysis where
  timestamp := raw.timestamp.getD 0
  team := normalizeTeam raw.team
  event := normalizeStr "none" raw.event
  ball_position := normalizeStr "unknown" raw.ball_position
  players_detected := normalizePlayers raw.players_detected
  team_a_shape := normalizeStr "Unknown" raw.team_a_shape
  team_b_shape := normalizeStr "Unknown" raw.team_b_shape
  tactical_notes := normalizeStr "none" raw.tactical_notes

/-- An already-normalized record re-read as raw model output, for stating
idempotence of `normalize`. -/
def FrameAnalysis.toRaw (f : FrameAnalysis) : RawModelOutput where
  timestamp := some f.timestamp
  team := some f.team
  event := some f.event
  ball_position := some f.ball_position
  players_detected := some f.players_detected
  team_a_shape := some f.team_a_shape
  team_b_shape := some f.team_b_shape
  tactical_notes := some f.tactical_notes

/-! #### Frame sampler -/

/-- Modelled from the spec: the sampler's error taxonomy entry for a bad
configuration (spec sections 4.1 and 7). -/
inductive SamplerError where
  | configError
deriving DecidableEq, Repr

/-- Modelled from the spec: the timestamps the frame sampler emits for one
video (spec section 4.1): the first frame at `t = 0`, subsequent frames at
`t = k·frame_interval` while within the video duration, truncated so that
no timestamp exceeds `max_duration`. -/
def sampleTimestamps (frame_interval duration max_duration : ℚ) : List ℚ :=
  let last : ℕ := (⌊min duration max_duration / frame_interval⌋).toNat
  (List.range (last + 1)).map (fun k : ℕ => (k : ℚ) * frame_interval)

/-- Modelled from the spec: the sampler checks `frame_interval > 0` and
`max_duration > 0` before sampling starts and fails with a `ConfigError`
otherwise (spec section 4.1). -/
def sampleVideo (frame_interval duration max_duration : ℚ) :
    Except SamplerError (List ℚ) :=
  if frame_interval ≤ 0 ∨ max_duration ≤ 0 then .error .configError
  else .ok (sampleTimestamps frame_interval duration max_duration)

/-! #### Pipeline orchestrator -/

/-- Modelled from the spec: the classified outcome of the AI client for one
frame, after its internal retry policy has resolved (spec section 4.3):
success, a per-frame failure that does not abort the batch, quota
exhaustion, or service unavailability. -/
inductive CallOutcome where
  | ok (raw : RawModelOutput)
  | frameFailed
  | quotaExhausted
  | serviceUnavailable
deriving Repr

/-- Modelled from the spec: `AnalysisResult`, the value the orchestrator
owns and delivers (spec section 3): ordered `FrameAnalysis` sequence,
overall status tag, attempted/succeeded counts, and the human-readable
reason attached to early-stopped batches (spec section 7). -/
structure AnalysisResult where
  frames : List FrameAnalysis
  status : String
  attempted : ℕ
  succeeded : ℕ
  reason : Option String
deriving Repr

/-- Modelled from the spec: why a batch stopped early (spec sections 4.3
and 7). -/
inductive StopCause where
  | quota
  | service
deriving DecidableEq, Repr

/-- Modelled from the spec: the sequential frame loop of the orchestrator
(spec section 4.5): successes are normalized and accumulated in order,
per-frame failures are recorded and skipped, quota exhaustion stops the
batch keeping all already-succeeded frames, service unavailability fails
the whole remaining batch immediately. -/
def processOutcomes : List CallOutcome → List FrameAnalysis × Option StopCause
  | [] => ([], none)
  | o :: rest =>
    match o with
    | .ok raw =>
      (normalize raw :: (processOutcomes rest).1, (processOutcomes rest).2)
    | .frameFailed => processOutcomes rest
    | .quotaExhausted => ([], some .quota)
    | .serviceUnavailable => ([], some .service)

/-- Modelled from the spec: the reason attached when a batch stops early,
distinguishing quota exhaustion from service unavailability (spec
section 7). -/
def stopReason : Option StopCause → Option String
  | none => none
  | some .quota => some "API quota exhausted"
  | some .service => some "AI service unavailable"

/-- Modelled from the spec: the orchestrator's result construction (spec
sections 4.5 and 6): complete when every attempted frame was analyzed,
failed when none was, partial otherwise. -/
def runBatch (outcomes : List CallOutcome) : AnalysisResult :=
  let fs := (processOutcomes outcomes).1
  { frames := fs
    status :=
      if fs.length = outcomes.length then "complete"
      else if fs.length = 0 then "failed"
      else "partial"
    attempted := outcomes.length
    succeeded := fs.length
    reason := stopReason (processOutcomes outcomes).2 }

/-- The normalized records of all successful outcomes, in order: the
sequence the orchestrator would deliver with no early stop. -/
def okFrames : List CallOutcome → List FrameAnalysis
  | [] => []
  | .ok raw :: rest => normalize raw :: okFrames rest
  | _ :: rest => okFrames rest

end Core

/-! ### Helper lemmas -/

theorem natDigitChars_length_le :
    ∀ (fuel n k : ℕ), n < 10 ^ k → (natDigitChars fuel n).length ≤ k := by
  intro fuel
  induction fuel with
  | zero => intro n k _; simp [natDigitChars]
  | succ fuel ih =>
    intro n k hk
    by_cases hn : n = 0
    · simp [natDigitChars, hn]
    · cases k with
      | zero =>
        exfalso
        have : n < 1 := by simpa using hk
        omega
      | succ k =>
        have hdiv : n / 10 < 10 ^ k := by
          apply Nat.div_lt_of_lt_mul
          calc n < 10 ^ (k + 1) := hk
            _ = 10 * 10 ^ k := by ring
        have := ih (n / 10) k hdiv
        simp only [natDigitChars, if_neg hn, List.length_append, List.length_cons,
          List.length_nil]
        omega

theorem natToString_length_le (n k : ℕ) (hk : 0 < k) (h : n < 10 ^ k) :
    (natToString n).length ≤ k := by
  by_cases hn : n = 0
  · simpa [natToString, hn] using hk
  · simpa [natToString, hn, String.length_mk] using natDigitChars_length_le (n + 1) n k h

theorem natToString_ne_empty (n : ℕ) : natToString n ≠ "" := by
  by_cases hn : n = 0
  · simp [natToString, hn]
  · intro h
    have hlen : (natToString n).length = 0 := by rw [h]; rfl
    rw [natToString, if_neg hn, String.length_mk] at hlen
    rw [show natDigitChars (n + 1) n
        = natDigitChars n (n / 10) ++ [Nat.digitChar (n % 10)] by
      simp [natDigitChars, hn]] at hlen
    simp at hlen

theorem natDigitChars_colon_notMem :
    ∀ (fuel n : ℕ), ':' ∉ natDigitChars fuel n := by
  intro fuel
  induction fuel with
  | zero => intro n; simp [natDigitChars]
  | succ fuel ih =>
    intro n
    by_cases hn : n = 0
    · simp [natDigitChars, hn]
    · simp only [natDigitChars, if_neg hn, List.mem_append, List.mem_cons]
      rintro (h | h | h)
      · exact ih (n / 10) h
      · have h10 : n % 10 < 10 := Nat.mod_lt _ (by norm_num)
        have : ∀ m, m < 10 → Nat.digitChar m ≠ ':' := by decide
        exact this (n % 10) h10 h.symm
      · simp at h

theorem padStart_length_of_le (s : String) (n : ℕ) (c : Char)
    (h : s.length ≤ n) : (padStart s n c).length = n := by
  rw [padStart, String.length_append, String.length_mk, List.length_replicate]
  omega

theorem jsMod_nonneg (a b : ℚ) (ha : 0 ≤ a) (hb : 0 < b) : 0 ≤ jsMod a b := by
  have hq : ¬(a / b < 0) := not_lt.mpr (div_nonneg ha hb.le)
  rw [jsMod, jsTrunc, if_neg hq]
  have h1 : (⌊a / b⌋ : ℚ) ≤ a / b := Int.floor_le _
  have h2 : b * (⌊a / b⌋ : ℚ) ≤ b * (a / b) := by
    exact mul_le_mul_of_nonneg_left h1 hb.le
  rw [mul_div_cancel₀ a hb.ne'] at h2
  linarith

theorem jsMod_lt (a b : ℚ) (ha : 0 ≤ a) (hb : 0 < b) : jsMod a b < b := by
  have hq : ¬(a / b < 0) := not_lt.mpr (div_nonneg ha hb.le)
  rw [jsMod, jsTrunc, if_neg hq]
  have h1 : a / b < ⌊a / b⌋ + 1 := Int.lt_floor_add_one _
  have h2 : b * (a / b) < b * ((⌊a / b⌋ : ℚ) + 1) := by
    exact mul_lt_mul_of_pos_left h1 hb
  rw [mul_div_cancel₀ a hb.ne'] at h2
  linarith

/-! ### Claim theorems -/

/-- C1: `uploadVideos` re-validates the configuration independently of any
form-level constraint: whenever `frame_interval ≤ 0` or `max_duration ≤ 0`
it throws before any network request is issued, and with
`frame_interval > 0` and `max_duration > 0` (and a valid file list) the
validation passes, so the request proceeds. -/
theorem uploadVideos_config_revalidation (files : List FileModel)
    (config : AnalysisConfig) :
    ((config.frame_interval ≤ 0 ∨ config.max_duration ≤ 0) →
      ∃ m, uploadVideosValidate files config = .error m) ∧
    (files ≠ [] → files.length ≤ 6 → (∀ f ∈ files, f.isFile = true) →
      0 < config.frame_interval → 0 < config.max_duration →
      ∃ entries, uploadVideosValidate files config = .ok entries) := by
  constructor
  · intro hbad
    rw [uploadVideosValidate]
    split_ifs with h1 h2 h3 h4 h5
    · exact ⟨_, rfl⟩
    · exact ⟨_, rfl⟩
    · exact ⟨_, rfl⟩
    · exact ⟨_, rfl⟩
    · exfalso
      rcases hbad with h | h
      · exact h3 h
      · exact h4 h
    · exact ⟨_, rfl⟩
  · intro hne hlen hfiles hfi hmd
    rw [uploadVideosValidate]
    rw [if_neg (by simpa using hne), if_neg (not_lt.mpr hlen),
      if_neg (not_le.mpr hfi), if_neg (not_le.mpr hmd),
      if_pos (by simpa [List.all_eq_true] using hfiles)]
    exact ⟨_, rfl⟩

/-- Closed witness for `uploadVideos_config_revalidation`: a single valid
file with `frame_interval = 0` is rejected, and the same file with a
positive configuration passes validation. -/
theorem uploadVideos_config_revalidation_witness :
    (∃ m, uploadVideosValidate [⟨"a.mp4", "video/mp4", 1000, true⟩]
      ⟨0, 10⟩ = .error m) ∧
    (∃ entries, uploadVideosValidate [⟨"a.mp4", "video/mp4", 1000, true⟩]
      ⟨1, 10⟩ = .ok entries) :=
  ⟨(uploadVideos_config_revalidation _ _).1 (Or.inl (by norm_num)),
   (uploadVideos_config_revalidation _ _).2 (by simp) (by simp)
     (by simp) (by norm_num) (by norm_num)⟩

/-- C4: at most 6 videos per upload attempt: `uploadVideos` throws for more
than 6 files, `handleFileSelect` rejects any addition that would exceed 6
videos, and pre-validation rejects every file larger than 100MB or of size
zero. -/
theorem upload_limits_enforced :
    (∀ (files : List FileModel) (config : AnalysisConfig), 6 < files.length →
      uploadVideosValidate files config = .error "Maximum 6 videos allowed") ∧
    (∀ videosLen fileCount : ℕ, 0 < fileCount → 6 < videosLen + fileCount →
      handleFileSelectGuard videosLen fileCount =
        .rejected "Maximum 6 videos allowed") ∧
    (∀ f : FileModel, 100 * 1024 * 1024 < f.size ∨ f.size = 0 →
      ∃ e, validateVideoSync f = some e) := by
  refine ⟨?_, ?_, ?_⟩
  · intro files config hlen
    rw [uploadVideosValidate, if_neg (by omega), if_pos hlen]
  · intro videosLen fileCount hpos hover
    rw [handleFileSelectGuard, if_neg (by omega), if_pos hover]
  · intro f hf
    rw [validateVideoSync]
    split_ifs with h1 h2 h3 h4
    · exact ⟨_, rfl⟩
    · exact ⟨_, rfl⟩
    · exact ⟨_, rfl⟩
    · exact ⟨_, rfl⟩
    · exfalso
      rcases hf with h | h
      · exact h3 h
      · exact h4 h

/-- Closed witness for `upload_limits_enforced`: seven files are rejected,
a seventh file cannot be added to six selected videos, and a 101MB file and
an empty file are both rejected. -/
theorem upload_limits_enforced_witness :
    uploadVideosValidate
      (List.replicate 7 ⟨"a.mp4", "video/mp4", 1000, true⟩) ⟨1, 10⟩ =
        .error "Maximum 6 videos allowed" ∧
    handleFileSelectGuard 6 1 = .rejected "Maximum 6 videos allowed" ∧
    (∃ e, validateVideoSync ⟨"big.mp4", "video/mp4", 105906177, true⟩ = some e) ∧
    (∃ e, validateVideoSync ⟨"empty.mp4", "video/mp4", 0, true⟩ = some e) :=
  ⟨upload_limits_enforced.1 _ _ (by simp),
   upload_limits_enforced.2.1 6 1 (by norm_num) (by norm_num),
   upload_limits_enforced.2.2 _ (Or.inl (by norm_num)),
   upload_limits_enforced.2.2 _ (Or.inr rfl)⟩

/-- C10: `addTimestampOverlay` throws before any network request when a
provided `maxDuration` is nonpositive or exceeds 60; with `maxDuration`
omitted (or `null`) no duration bound is enforced and the request proceeds
with no `max_duration` form field. -/
theorem addTimestampOverlay_duration_validation (files : List FileModel)
    (md : ℚ) :
    ((md ≤ 0 ∨ 60 < md) →
      ∃ m, addTimestampOverlayValidate files (some md) = .error m) ∧
    (files ≠ [] → files.length ≤ 6 → (∀ f ∈ files, f.isFile = true) →
      ∃ entries, addTimestampOverlayValidate files none = .ok entries ∧
        ∀ e ∈ entries, e.1 ≠ "max_duration") := by
  constructor
  · intro hbad
    simp only [addTimestampOverlayValidate]
    split_ifs with h1 h2 h3 h4 h5
    · exact ⟨_, rfl⟩
    · exact ⟨_, rfl⟩
    · exact ⟨_, rfl⟩
    · exact ⟨_, rfl⟩
    · exfalso
      rcases hbad with h | h
      · exact h3 h
      · exact h4 h
    · exact ⟨_, rfl⟩
  · intro hne hlen hfiles
    simp only [addTimestampOverlayValidate]
    split_ifs with h1 h2 h3
    · exact absurd (List.length_eq_zero.mp h1) hne
    · exact absurd h2 (not_lt.mpr hlen)
    · refine ⟨_, rfl, ?_⟩
      intro e he
      rcases List.mem_map.mp he with ⟨f, _, rfl⟩
      simp
    · exact absurd (by simpa [List.all_eq_true] using hfiles) h3

/-- Closed witness for `addTimestampOverlay_duration_validation`: a
provided `maxDuration` of 61 seconds is rejected, and an omitted
`maxDuration` produces a form without a `max_duration` entry. -/
theorem addTimestampOverlay_duration_validation_witness :
    (∃ m, addTimestampOverlayValidate [⟨"a.mp4", "video/mp4", 1000, true⟩]
      (some 61) = .error m) ∧
    (∃ entries, addTimestampOverlayValidate [⟨"a.mp4", "video/mp4", 1000, true⟩]
      none = .ok entries ∧ ∀ e ∈ entries, e.1 ≠ "max_duration") :=
  ⟨(addTimestampOverlay_duration_validation _ 61).1 (Or.inr (by norm_num)),
   (addTimestampOverlay_duration_validation _ 61).2 (by simp) (by simp)
     (by simp)⟩

/-- The frames accumulated by the orchestrator loop form a prefix of the
normalized successful outcomes taken in submission order. -/
theorem processOutcomes_ordered (os : List Core.CallOutcome) :
    ∃ t, (Core.processOutcomes os).1 ++ t = Core.okFrames os := by
  induction os with
  | nil => exact ⟨[], rfl⟩
  | cons o rest ih =>
    cases o with
    | ok raw =>
      obtain ⟨t, ht⟩ := ih
      exact ⟨t, by simp [Core.processOutcomes, Core.okFrames, ht]⟩
    | frameFailed =>
      obtain ⟨t, ht⟩ := ih
      exact ⟨t, by simpa [Core.processOutcomes, Core.okFrames] using ht⟩
    | quotaExhausted =>
      exact ⟨Core.okFrames rest, by simp [Core.processOutcomes, Core.okFrames]⟩
    | serviceUnavailable =>
      exact ⟨Core.okFrames rest, by simp [Core.processOutcomes, Core.okFrames]⟩

/-- C3 (spec-modelled): the value delivered at the result boundary carries
an ordered `FrameAnalysis` sequence (a prefix, in submission order, of the
normalized successful outcomes), a status tag drawn from
`{complete, partial, failed}`, and both an attempted and a succeeded
count. -/
theorem runBatch_result_boundary (outcomes : List Core.CallOutcome) :
    ((Core.runBatch outcomes).status = "complete" ∨
      (Core.runBatch outcomes).status = "partial" ∨
      (Core.runBatch outcomes).status = "failed") ∧
    (Core.runBatch outcomes).attempted = outcomes.length ∧
    (Core.runBatch outcomes).succeeded = (Core.runBatch outcomes).frames.length ∧
    ∃ t, (Core.runBatch outcomes).frames ++ t = Core.okFrames outcomes := by
  refine ⟨?_, rfl, rfl, processOutcomes_ordered outcomes⟩
  simp only [Core.runBatch]
  split_ifs <;> simp

/-- C2 counterexample: a response with status `"partial"` carries no
machine-readable reason.  The `AnalysisResponse` interface declares no
`reason` field, and two concrete partial responses with different contents
produce the identical hard-coded quota banner, so quota exhaustion cannot
be distinguished from service unavailability. -/
theorem partial_reason_counterexample :
    "reason" ∉ analysisResponseKeys ∧
    bannerFor ⟨[], 4, "partial"⟩ = some partialQuotaText ∧
    bannerFor ⟨[⟨0, "goal", "center", 10, "4-4-2", "4-3-3", "press"⟩], 9,
      "partial"⟩ = some partialQuotaText := by
  refine ⟨by decide, rfl, rfl⟩

/-- C2 amended: a partial response carries only `frames`, `total_frames`
and `status` — no machine-readable reason field — and the app renders the
same fixed human-readable quota-exhaustion text for every response whose
status is `"partial"`, whatever caused the partiality. -/
theorem partial_reason_amended :
    "reason" ∉ analysisResponseKeys ∧
    ∀ r : AnalysisResponse, r.status = "partial" →
      bannerFor r = some partialQuotaText := by
  refine ⟨by decide, ?_⟩
  intro r hr
  simp [bannerFor, partialBanner, hr]

/-- Closed witness for `partial_reason_amended` at a concrete partial
response. -/
theorem partial_reason_amended_witness :
    bannerFor ⟨[], 7, "partial"⟩ = some partialQuotaText :=
  partial_reason_amended.2 ⟨[], 7, "partial"⟩ rfl

/-- Team normalization only ever produces `"A"`, `"B"` or `"unknown"`. -/
theorem normalizeTeam_mem (t : Option String) :
    Core.normalizeTeam t = "A" ∨ Core.normalizeTeam t = "B" ∨
      Core.normalizeTeam t = "unknown" := by
  rcases t with _ | s
  · right; right; rfl
  · simp only [Core.normalizeTeam]
    split_ifs <;> simp

/-- Team normalization is idempotent on its own output. -/
theorem normalizeTeam_idem (t : Option String) :
    Core.normalizeTeam (some (Core.normalizeTeam t)) = Core.normalizeTeam t := by
  rcases normalizeTeam_mem t with h | h | h <;> rw [h] <;> decide

/-- String-field normalization with a non-empty default is idempotent. -/
theorem normalizeStr_idem (d : String) (hd : d ≠ "") (raw : Option String) :
    Core.normalizeStr d (some (Core.normalizeStr d raw)) =
      Core.normalizeStr d raw := by
  rcases raw with _ | s
  · simp [Core.normalizeStr, hd]
  · simp only [Core.normalizeStr]
    split_ifs with h1 <;> simp_all

/-- Player-count coercion is idempotent on its own output. -/
theorem normalizePlayers_idem (p : Option ℤ) :
    Core.normalizePlayers (some (Core.normalizePlayers p)) =
      Core.normalizePlayers p := by
  rcases p with _ | n
  · rfl
  · simp only [Core.normalizePlayers]
    split_ifs with h1 <;> omega

/-- C5 (spec-modelled): `normalize` is total by construction
(`RawModelOutput → FrameAnalysis`), idempotent on already-normalized
records, keeps every team field in `{A, B, unknown}`, and sends the raw
output with team `"TEAM 1"` and `players_detected = -3` to team `"A"` with
`players_detected = 0`. -/
theorem normalize_total_idempotent :
    (∀ r : Core.RawModelOutput,
      Core.normalize (Core.FrameAnalysis.toRaw (Core.normalize r)) =
        Core.normalize r) ∧
    (∀ r : Core.RawModelOutput, (Core.normalize r).team = "A" ∨
      (Core.normalize r).team = "B" ∨ (Core.normalize r).team = "unknown") ∧
    (Core.normalize
      ⟨none, some "TEAM 1", none, none, some (-3), none, none, none⟩).team =
        "A" ∧
    (Core.normalize
      ⟨none, some "TEAM 1", none, none, some (-3), none, none,
        none⟩).players_detected = 0 := by
  refine ⟨?_, fun r => normalizeTeam_mem r.team, by decide, by decide⟩
  intro r
  simp only [Core.normalize, Core.FrameAnalysis.toRaw, Core.FrameAnalysis.mk.injEq]
  exact ⟨rfl, normalizeTeam_idem _, normalizeStr_idem _ (by decide) _,
    normalizeStr_idem _ (by decide) _, normalizePlayers_idem _,
    normalizeStr_idem _ (by decide) _, normalizeStr_idem _ (by decide) _,
    normalizeStr_idem _ (by decide) _⟩

/-- C9: `SummaryPanel`'s summary is guarded against division by zero — the
empty frame list yields `avgPlayersDetected = 0` and
`ballVisibilityRate = 0` — and for every frame list with non-negative
`players_detected` values the ball-visibility rate is an integer (the `ℤ`
codomain of the `Math.round` model) between 0 and 100 inclusive. -/
theorem summaryPanel_guarded_bounds :
    (computeSummary []).avgPlayersDetected = 0 ∧
    (computeSummary []).ballVisibilityRate = 0 ∧
    ∀ frames : List FrameAnalysis,
      (∀ f ∈ frames, 0 ≤ f.players_detected) →
      0 ≤ (computeSummary frames).ballVisibilityRate ∧
      (computeSummary frames).ballVisibilityRate ≤ 100 := by
  refine ⟨?_, ?_, ?_⟩
  · norm_num [computeSummary, jsRound]
  · norm_num [computeSummary, jsRound]
  · intro frames _
    simp only [computeSummary, jsRound]
    rcases Nat.eq_zero_or_pos frames.length with hlen | hlen
    · rw [if_neg (by omega)]
      norm_num
    · rw [if_pos hlen]
      set cnt := (frames.filter (fun f => isBallVisible f)).length with hcnt
      have hle : cnt ≤ frames.length := List.length_filter_le _ _
      have hq0 : (0 : ℚ) ≤ (cnt : ℚ) / (frames.length : ℚ) * 100 := by
        positivity
      have hq1 : (cnt : ℚ) / (frames.length : ℚ) * 100 ≤ 100 := by
        have hdiv : (cnt : ℚ) / (frames.length : ℚ) ≤ 1 := by
          rw [div_le_one (by exact_mod_cast hlen)]
          exact_mod_cast hle
        nlinarith
      constructor
      · exact Int.le_floor.mpr (by push_cast; linarith)
      · have : ((cnt : ℚ) / (frames.length : ℚ) * 100 + 1 / 2) < 101 := by
          linarith
        have hfl := Int.floor_lt.mpr (by push_cast; linarith : ((cnt : ℚ) / (frames.length : ℚ) * 100 + 1 / 2) < ((101 : ℤ) : ℚ))
        omega

/-- Closed witness for `summaryPanel_guarded_bounds`: the bounds hold at a
concrete two-frame list with non-negative player counts. -/
theorem summaryPanel_guarded_bounds_witness :
    0 ≤ (computeSummary [⟨0, "goal", "center", 10, "4-4-2", "4-3-3", "n"⟩,
      ⟨2, "none", "Not visible", 8, "Unknown", "Unknown", "n"⟩]).ballVisibilityRate ∧
    (computeSummary [⟨0, "goal", "center", 10, "4-4-2", "4-3-3", "n"⟩,
      ⟨2, "none", "Not visible", 8, "Unknown", "Unknown", "n"⟩]).ballVisibilityRate ≤ 100 :=
  summaryPanel_guarded_bounds.2.2 _ (by decide)

/-- C6 (spec-modelled): for every valid configuration the sampler never
emits a timestamp beyond `max_duration`, emits at most
`⌈max_duration / frame_interval⌉ + 1` frames per video, and a 15-second
video with `max_duration = 10` and `frame_interval = 2` yields exactly the
six frames at `t = 0, 2, 4, 6, 8, 10`. -/
theorem sampler_truncation_and_bound :
    (∀ fi dur md : ℚ, 0 < fi → 0 < md →
      (∀ t ∈ Core.sampleTimestamps fi dur md, t ≤ md) ∧
      ((Core.sampleTimestamps fi dur md).length : ℤ) ≤ ⌈md / fi⌉ + 1 ∧
      Core.sampleVideo fi dur md = .ok (Core.sampleTimestamps fi dur md)) ∧
    Core.sampleTimestamps 2 15 10 = [0, 2, 4, 6, 8, 10] := by
  constructor
  · intro fi dur md hfi hmd
    have hdef : Core.sampleTimestamps fi dur md =
        (List.range ((⌊min dur md / fi⌋).toNat + 1)).map
          (fun k : ℕ => (k : ℚ) * fi) := rfl
    have hceil : (0 : ℤ) ≤ ⌈md / fi⌉ := Int.ceil_nonneg (div_nonneg hmd.le hfi.le)
    have hfloor : ⌊min dur md / fi⌋ ≤ ⌈md / fi⌉ := by
      have h1 : min dur md / fi ≤ md / fi := by
        gcongr
        exact min_le_right _ _
      exact le_trans (Int.floor_le_floor h1) (Int.floor_le_ceil _)
    refine ⟨?_, ?_, ?_⟩
    · intro t ht
      rw [hdef] at ht
      simp only [List.mem_map, List.mem_range] at ht
      obtain ⟨k, hk, rfl⟩ := ht
      rcases le_or_lt ⌊min dur md / fi⌋ 0 with hN | hN
      · rw [Int.toNat_of_nonpos hN] at hk
        have hk0 : k = 0 := by omega
        subst hk0
        simpa using hmd.le
      · have htn : ((⌊min dur md / fi⌋).toNat : ℤ) = ⌊min dur md / fi⌋ :=
          Int.toNat_of_nonneg hN.le
        have hk' : (k : ℤ) ≤ ⌊min dur md / fi⌋ := by
          rw [← htn]
          exact_mod_cast Nat.lt_succ_iff.mp hk
        have hkq : (k : ℚ) ≤ min dur md / fi := by
          calc (k : ℚ) = ((k : ℤ) : ℚ) := by push_cast; rfl
            _ ≤ ((⌊min dur md / fi⌋ : ℤ) : ℚ) := by exact_mod_cast hk'
            _ ≤ min dur md / fi := Int.floor_le _
        have hmul : (k : ℚ) * fi ≤ min dur md / fi * fi :=
          mul_le_mul_of_nonneg_right hkq hfi.le
        rw [div_mul_cancel₀ _ hfi.ne'] at hmul
        exact le_trans hmul (min_le_right dur md)
    · rw [hdef, List.length_map, List.length_range]
      rcases le_or_lt ⌊min dur md / fi⌋ 0 with hN | hN
      · rw [Int.toNat_of_nonpos hN]
        push_cast
        linarith
      · have htn : ((⌊min dur md / fi⌋).toNat : ℤ) = ⌊min dur md / fi⌋ :=
          Int.toNat_of_nonneg hN.le
        push_cast
        rw [htn]
        linarith
    · rw [Core.sampleVideo,
        if_neg (not_or.mpr ⟨not_le.mpr hfi, not_le.mpr hmd⟩)]
  · have h5 : (⌊min (15 : ℚ) 10 / 2⌋ : ℤ) = 5 := by norm_num
    have h5p : (⌊min (15 : ℚ) 10 / 2⌋ : ℤ).toNat = 5 := by rw [h5]; rfl
    rw [Core.sampleTimestamps, h5p]
    simp [List.range_succ]
    norm_num

/-- Closed witness for `sampler_truncation_and_bound`: the bounds
instantiated at the valid configuration `frame_interval = 2`,
`duration = 15`, `max_duration = 10`. -/
theorem sampler_truncation_and_bound_witness :
    (∀ t ∈ Core.sampleTimestamps 2 15 10, t ≤ 10) ∧
    ((Core.sampleTimestamps 2 15 10).length : ℤ) ≤ ⌈(10 : ℚ) / 2⌉ + 1 :=
  ⟨(sampler_truncation_and_bound.1 2 15 10 (by norm_num) (by norm_num)).1,
   (sampler_truncation_and_bound.1 2 15 10 (by norm_num) (by norm_num)).2.1⟩

/-- A non-negative integer renders as its natural-number decimal form. -/
theorem intToString_nonneg_eq (i : ℤ) (h : 0 ≤ i) :
    intToString i = natToString i.toNat := by
  rw [intToString, if_neg (not_lt.mpr h)]

/-- Digit-count bound for the rendering of a non-negative integer. -/
theorem intToString_length_le (i : ℤ) (k : ℕ) (hk : 0 < k) (h0 : 0 ≤ i)
    (hik : i < (10 : ℤ) ^ k) : (intToString i).length ≤ k := by
  rw [intToString_nonneg_eq _ h0]
  apply natToString_length_le _ _ hk
  have hp : ((10 ^ k : ℕ) : ℤ) = (10 : ℤ) ^ k := by push_cast; ring
  omega

/-- The rendering of a non-negative integer is non-empty. -/
theorem intToString_nonneg_ne_empty (i : ℤ) (h : 0 ≤ i) :
    intToString i ≠ "" := by
  rw [intToString_nonneg_eq _ h]
  exact natToString_ne_empty _

/-- Decimal digit strings contain no colon. -/
theorem natToString_colon_count (n : ℕ) :
    (natToString n).data.count ':' = 0 := by
  by_cases hn : n = 0
  · subst hn; decide
  · rw [natToString, if_neg hn]
    exact List.count_eq_zero.mpr (natDigitChars_colon_notMem _ _)

/-- Any string of the claimed `H:MM:SS.mmm` shape contains at least two
colons. -/
theorem specHoursMinSecMs_two_colons (out : String)
    (h : specHoursMinSecMs out) : 2 ≤ out.data.count ':' := by
  obtain ⟨h1, m, sec, ms, heq, _⟩ := h
  subst heq
  simp only [String.data_append, List.count_append]
  have c1 : (":" : String).data.count ':' = 1 := by decide
  rw [c1]
  omega

/-- Bounds of the minutes, seconds and milliseconds components computed by
`formatDuration` for a non-negative duration. -/
theorem formatDuration_component_bounds (s : ℚ) (hs : 0 ≤ s) :
    (0 ≤ ⌊jsMod s 3600 / 60⌋ ∧ ⌊jsMod s 3600 / 60⌋ < 60) ∧
    (0 ≤ ⌊jsMod s 60⌋ ∧ ⌊jsMod s 60⌋ < 60) ∧
    (0 ≤ ⌊jsMod s 1 * 1000⌋ ∧ ⌊jsMod s 1 * 1000⌋ < 1000) := by
  have m1 := jsMod_nonneg s 3600 hs (by norm_num)
  have m2 := jsMod_lt s 3600 hs (by norm_num)
  have s1 := jsMod_nonneg s 60 hs (by norm_num)
  have s2 := jsMod_lt s 60 hs (by norm_num)
  have u1 := jsMod_nonneg s 1 hs (by norm_num)
  have u2 := jsMod_lt s 1 hs (by norm_num)
  refine ⟨⟨?_, ?_⟩, ⟨?_, ?_⟩, ⟨?_, ?_⟩⟩
  · exact Int.floor_nonneg.mpr (by positivity)
  · apply Int.floor_lt.mpr
    push_cast
    rw [div_lt_iff₀ (by norm_num : (0 : ℚ) < 60)]
    linarith
  · exact Int.floor_nonneg.mpr s1
  · apply Int.floor_lt.mpr
    push_cast
    linarith
  · exact Int.floor_nonneg.mpr (by positivity)
  · apply Int.floor_lt.mpr
    push_cast
    linarith

/-- C7 amended: only durations of one hour or more are formatted with an
hours field (`H:MM:SS.mmm`, two-digit minutes and seconds, three-digit
milliseconds); durations under one hour are formatted `M:SS.mmm`, with the
hours field omitted and a single unpadded minutes field. -/
theorem formatDuration_fields (s : ℚ) (hs : 0 ≤ s) :
    (3600 ≤ s → specHoursMinSecMs (formatDuration s)) ∧
    (s < 3600 → specMinSecMs (formatDuration s)) := by
  obtain ⟨⟨hm0, hm60⟩, ⟨hs0, hs60⟩, ⟨hu0, hu1000⟩⟩ :=
    formatDuration_component_bounds s hs
  have hminLen : (intToString ⌊jsMod s 3600 / 60⌋).length ≤ 2 :=
    intToString_length_le _ 2 (by norm_num) hm0 (by norm_num; omega)
  have hsecLen : (intToString ⌊jsMod s 60⌋).length ≤ 2 :=
    intToString_length_le _ 2 (by norm_num) hs0 (by norm_num; omega)
  have hmsLen : (intToString ⌊jsMod s 1 * 1000⌋).length ≤ 3 :=
    intToString_length_le _ 3 (by norm_num) hu0 (by norm_num; omega)
  constructor
  · intro h36
    have hpos : 0 < ⌊s / 3600⌋ := by
      have h1 : (1 : ℚ) ≤ s / 3600 := by
        rw [le_div_iff₀ (by norm_num : (0 : ℚ) < 3600)]
        linarith
      have := Int.le_floor.mpr (by push_cast; linarith : ((1 : ℤ) : ℚ) ≤ s / 3600)
      omega
    rw [formatDuration, if_pos hpos]
    refine ⟨intToString ⌊s / 3600⌋,
      padStart (intToString ⌊jsMod s 3600 / 60⌋) 2 '0',
      padStart (intToString ⌊jsMod s 60⌋) 2 '0',
      padStart (intToString ⌊jsMod s 1 * 1000⌋) 3 '0', rfl,
      intToString_nonneg_ne_empty _ hpos.le, ?_, ?_, ?_⟩
    · exact padStart_length_of_le _ _ _ hminLen
    · exact padStart_length_of_le _ _ _ hsecLen
    · exact padStart_length_of_le _ _ _ hmsLen
  · intro h36
    have hzero : ⌊s / 3600⌋ = 0 := by
      apply Int.floor_eq_zero_iff.mpr
      constructor
      · positivity
      · rw [div_lt_one (by norm_num : (0 : ℚ) < 3600)]
        exact h36
    rw [formatDuration, if_neg (by omega)]
    refine ⟨intToString ⌊jsMod s 3600 / 60⌋,
      padStart (intToString ⌊jsMod s 60⌋) 2 '0',
      padStart (intToString ⌊jsMod s 1 * 1000⌋) 3 '0', rfl,
      intToString_nonneg_ne_empty _ hm0, ?_, ?_, ?_⟩
    · rw [intToString_nonneg_eq _ hm0]
      exact natToString_colon_count _
    · exact padStart_length_of_le _ _ _ hsecLen
    · exact padStart_length_of_le _ _ _ hmsLen

/-- Closed witness for `formatDuration_fields`: the hour form at 3661
seconds, the minutes form at 5 seconds. -/
theorem formatDuration_fields_witness :
    specHoursMinSecMs (formatDuration 3661) ∧ specMinSecMs (formatDuration 5) :=
  ⟨(formatDuration_fields 3661 (by norm_num)).1 (by norm_num),
   (formatDuration_fields 5 (by norm_num)).2 (by norm_num)⟩

/-- C7 counterexample: `formatDuration 5` is `"0:05.000"`, which is not of
the claimed `HH:MM:SS.mmm` shape — the hours field is missing and the
minutes field has a single digit. -/
theorem formatDuration_counterexample :
    formatDuration 5 = "0:05.000" ∧
    ¬ specHoursMinSecMs (formatDuration 5) := by
  have h : formatDuration 5 = "0:05.000" := by
    have h1 : (⌊(5 : ℚ) / 3600⌋ : ℤ) = 0 := by norm_num
    have h2 : jsMod 5 3600 = 5 := by norm_num [jsMod, jsTrunc]
    have h3 : jsMod 5 60 = 5 := by norm_num [jsMod, jsTrunc]
    have h4 : jsMod 5 1 = 0 := by norm_num [jsMod, jsTrunc]
    rw [formatDuration]
    rw [h1, h2, h3, h4]
    norm_num
    decide
  refine ⟨h, ?_⟩
  intro hspec
  have h2c := specHoursMinSecMs_two_colons _ hspec
  rw [h] at h2c
  have hc : (("0:05.000" : String).data.count ':') = 1 := by decide
  omega

/-- C8: `uploadVideos` returns normally exactly when the response is ok and
the parsed body is truthy with an array `frames` field; every non-ok
response throws, with the status-specific messages for 400 (body-derived),
413, 500 and other statuses above 500. -/
theorem uploadVideos_response_contract (r : FetchResponse) :
    ((∃ v, uploadVideosHandleResponse r = .ok v) ↔
      (r.ok = true ∧ ∃ b, r.body = some b ∧ b.falsy = false ∧
        isArrayOpt (b.getField "frames") = true)) ∧
    (r.ok = false → r.status = 400 →
      uploadVideosHandleResponse r = .error (if uploadErrorMessage r = ""
        then "Invalid request. Please check your video files and settings."
        else uploadErrorMessage r)) ∧
    (r.ok = false → r.status = 413 →
      uploadVideosHandleResponse r =
        .error "File too large. Maximum file size is 100MB.") ∧
    (r.ok = false → r.status = 500 →
      uploadVideosHandleResponse r =
        .error "Server error. Please try again later.") ∧
    (r.ok = false → 500 < r.status →
      uploadVideosHandleResponse r = .error
        ("Server error (" ++ natToString r.status ++
          "). Please try again later.")) := by
  cases hok : r.ok with
  | false =>
    refine ⟨?_, ?_, ?_, ?_, ?_⟩
    · constructor
      · rintro ⟨v, hv⟩
        exfalso
        simp only [uploadVideosHandleResponse, hok] at hv
        revert hv
        split_ifs <;> simp_all
      · rintro ⟨habs, -⟩
        simp at habs
    · intro _ h400
      simp [uploadVideosHandleResponse, hok, h400]
    · intro _ h413
      simp [uploadVideosHandleResponse, hok, h413]
    · intro _ h500
      simp [uploadVideosHandleResponse, hok, h500]
    · intro _ hgt
      have h1 : ¬ r.status = 400 := by omega
      have h2 : ¬ r.status = 413 := by omega
      have h3 : ¬ r.status = 500 := by omega
      have h4 : 500 ≤ r.status := by omega
      simp [uploadVideosHandleResponse, hok, h1, h2, h3, h4]
  | true =>
    refine ⟨?_, ?_, ?_, ?_, ?_⟩
    · cases hbody : r.body with
      | none => simp [uploadVideosHandleResponse, hok, hbody]
      | some b =>
        by_cases hf : b.falsy
        · simp [uploadVideosHandleResponse, hok, hbody, hf]
        · by_cases ha : isArrayOpt (b.getField "frames")
          · simp [uploadVideosHandleResponse, hok, hbody, hf, ha]
          · simp [uploadVideosHandleResponse, hok, hbody, hf, ha]
    · intro habs
      exact absurd habs (by decide)
    · intro habs
      exact absurd habs (by decide)
    · intro habs
      exact absurd habs (by decide)
    · intro habs
      exact absurd habs (by decide)

/-- Closed witness for `uploadVideos_response_contract`: the fixed messages
at concrete 413 and 503 responses, and normal return at a concrete ok
response with an array `frames` field. -/
theorem uploadVideos_response_contract_witness :
    uploadVideosHandleResponse ⟨false, 413, "Payload Too Large", none⟩ =
      .error "File too large. Maximum file size is 100MB." ∧
    uploadVideosHandleResponse ⟨false, 503, "Service Unavailable", none⟩ =
      .error "Server error (503). Please try again later." ∧
    ∃ v, uploadVideosHandleResponse
      ⟨true, 200, "OK", some (.jobj [("frames", .jarr []),
        ("total_frames", .jnum 0), ("status", .jstr "complete")])⟩ = .ok v := by
  refine ⟨(uploadVideos_response_contract _).2.2.1 rfl rfl, ?_, ?_⟩
  · have h := (uploadVideos_response_contract
      ⟨false, 503, "Service Unavailable", none⟩).2.2.2.2 rfl (by norm_num)
    rw [h]
    rfl
  · exact (uploadVideos_response_contract _).1.mpr
      ⟨rfl, _, rfl, rfl, rfl⟩
